import Mathlib

/-!
Verification development for the Meetaudreyevans repository.

Part I embeds the `cybersecurity-threat-dashboard` JavaScript sources
(`src/api.js`, `src/App.jsx`, `src/components/ThreatDetailsModal.jsx`)
as Lean functions over explicit data.

Part II models the DataScope collection engine (Source Registry, Cache
Store, Collection Orchestrator, Interactive Collector) from the spec,
since the Python engine itself is not part of the checked-in sources.
-/

namespace Dashboard

/-- One threat record, with the fields used by `api.js` and `App.jsx`. -/
structure Threat where
  cveID : String
  vendorProject : String
  product : String
  vulnerabilityName : String
  dateAdded : String
  dueDate : String
  severity : String
  cwes : List String
  shortDescription : String
  knownRansomwareCampaignUse : String
  requiredAction : String
deriving Repr, DecidableEq

/-- JavaScript `String.prototype.toLowerCase`, as the per-character lowering
    (the two agree on the ASCII data this dashboard handles). -/
def jsToLower (s : String) : String := s.map Char.toLower

/-- Substring containment on character lists: does `needle` occur
    contiguously inside the list? -/
def listIncludes (needle : List Char) : List Char → Bool
  | [] => needle.isEmpty
  | c :: t => needle.isPrefixOf (c :: t) || listIncludes needle t

/-- JavaScript `String.prototype.includes`. -/
def strIncludes (hay sub : String) : Bool := listIncludes sub.data hay.data

/-- The filter object accepted by `fetchThreats` / `getMockData`.
    A `none` field models an absent property. -/
structure Filters where
  search : Option String := none
  vendor : Option String := none
  severity : Option String := none
  page : Option Nat := none
  limit : Option Nat := none

/-- JavaScript `x || d` for an optional number: absent and `0` are falsy. -/
def jsOrNat (o : Option Nat) (d : Nat) : Nat :=
  match o with
  | some n => if n = 0 then d else n
  | none => d

/-- `Math.ceil (a / b)` on natural numbers (exact for the small integer
    arithmetic the dashboard performs). -/
def ceilDiv (a b : Nat) : Nat := (a + b - 1) / b

/-- The shape returned by `fetchThreats` / `getMockData`. -/
structure ThreatsResponse where
  threats : List Threat
  total : Nat
  page : Nat
  totalPages : Nat
deriving Repr, DecidableEq

/-- The three hard-coded records of `getMockData` in `api.js`. -/
def mockThreats : List Threat :=
  [ { cveID := "CVE-2025-20362"
      vendorProject := "Cisco"
      product := "Secure Firewall Adaptive Security Appliance"
      vulnerabilityName := "Cisco Secure Firewall Missing Authorization Vulnerability"
      dateAdded := "2025-09-25"
      dueDate := "2025-09-26"
      severity := "Critical"
      cwes := ["CWE-862"]
      shortDescription := "Missing authorization vulnerability that could be chained with CVE-2025-20333"
      knownRansomwareCampaignUse := "Unknown"
      requiredAction := "Apply mitigations per vendor instructions" },
    { cveID := "CVE-2025-20333"
      vendorProject := "Cisco"
      product := "Secure Firewall Threat Defense"
      vulnerabilityName := "Cisco Secure Firewall Buffer Overflow Vulnerability"
      dateAdded := "2025-09-25"
      dueDate := "2025-09-26"
      severity := "Critical"
      cwes := ["CWE-120"]
      shortDescription := "Buffer overflow vulnerability allowing remote code execution"
      knownRansomwareCampaignUse := "Unknown"
      requiredAction := "Apply mitigations per vendor instructions" },
    { cveID := "CVE-2025-10585"
      vendorProject := "Google"
      product := "Chromium V8"
      vulnerabilityName := "Google Chromium V8 Type Confusion Vulnerability"
      dateAdded := "2025-09-23"
      dueDate := "2025-10-14"
      severity := "High"
      cwes := ["CWE-843"]
      shortDescription := "Type confusion vulnerability in V8 JavaScript engine"
      knownRansomwareCampaignUse := "Unknown"
      requiredAction := "Apply mitigations per vendor instructions" } ]

/-- The search predicate of `getMockData`: the lowered search term occurs in
    one of the four lowered text fields. -/
def searchPred (s : String) (threat : Threat) : Bool :=
  let searchTerm := jsToLower s
  strIncludes (jsToLower threat.cveID) searchTerm ||
  strIncludes (jsToLower threat.vendorProject) searchTerm ||
  strIncludes (jsToLower threat.product) searchTerm ||
  strIncludes (jsToLower threat.vulnerabilityName) searchTerm

/-- First reassignment of `filtered` in `getMockData`:
    `if (filters.search) filtered = filtered.filter(...)`. -/
def searchStage (o : Option String) (l : List Threat) : List Threat :=
  match o with
  | some s => if s ≠ "" then l.filter (searchPred s) else l
  | none => l

/-- Second reassignment of `filtered` in `getMockData`:
    `if (filters.vendor && filters.vendor !== 'all') ...`. -/
def vendorStage (o : Option String) (l : List Threat) : List Threat :=
  match o with
  | some v =>
      if v ≠ "" ∧ v ≠ "all" then
        l.filter (fun threat => threat.vendorProject == v)
      else l
  | none => l

/-- Third reassignment of `filtered` in `getMockData`:
    `if (filters.severity && filters.severity !== 'all') ...`. -/
def severityStage (o : Option String) (l : List Threat) : List Threat :=
  match o with
  | some v =>
      if v ≠ "" ∧ v ≠ "all" then
        l.filter (fun threat => threat.severity == v)
      else l
  | none => l

/-- `getMockData` from `api.js`: the hard-coded records run through the
    search / vendor / severity filter pipeline, packaged with pagination
    metadata. -/
def getMockData (filters : Filters) : ThreatsResponse :=
  let filtered :=
    severityStage filters.severity
      (vendorStage filters.vendor (searchStage filters.search mockThreats))
  { threats := filtered
    total := filtered.length
    page := jsOrNat filters.page 1
    totalPages := ceilDiv filtered.length (jsOrNat filters.limit 10) }

/-- Outcome of the underlying network request in `fetchThreats`. -/
inductive NetOutcome where
  | success (body : ThreatsResponse)
  | httpError (status : Nat)
  | netThrow
deriving Repr, DecidableEq

/-- The `try` block of `fetchThreats`: throws (`.error`) on a non-OK status
    or a fetch failure, otherwise yields the parsed body. -/
def fetchAttempt (net : NetOutcome) : Except String ThreatsResponse :=
  match net with
  | .success body => .ok body
  | .httpError status => .error ("HTTP error! status: " ++ toString status)
  | .netThrow => .error "fetch failed"

/-- `fetchThreats` from `api.js`: the `try` block with its `catch` falling
    back to `getMockData filters`. -/
def fetchThreats (net : NetOutcome) (filters : Filters) : ThreatsResponse :=
  match fetchAttempt net with
  | .ok body => body
  | .error _ => getMockData filters

/-- Pointwise condition of `searchStage`. -/
def searchCond (o : Option String) (threat : Threat) : Bool :=
  match o with
  | some s => if s ≠ "" then searchPred s threat else true
  | none => true

/-- Pointwise condition of `vendorStage`. -/
def vendorCond (o : Option String) (threat : Threat) : Bool :=
  match o with
  | some v => if v ≠ "" ∧ v ≠ "all" then threat.vendorProject == v else true
  | none => true

/-- Pointwise condition of `severityStage`. -/
def severityCond (o : Option String) (threat : Threat) : Bool :=
  match o with
  | some v => if v ≠ "" ∧ v ≠ "all" then threat.severity == v else true
  | none => true

/-- The combined filter predicate the spec describes for the fallback:
    search matched case-insensitively against `cveID`, `vendorProject`,
    `product` and `vulnerabilityName`; vendor and severity applied when set
    and not `all`. -/
def specMatches (filters : Filters) (threat : Threat) : Bool :=
  searchCond filters.search threat &&
  vendorCond filters.vendor threat &&
  severityCond filters.severity threat

theorem filter_ptwise {p q : Threat → Bool} (h : ∀ t, p t = q t)
    (l : List Threat) : l.filter p = l.filter q :=
  List.filter_congr (fun t _ => h t)

theorem searchStage_eq_filter (o : Option String) (l : List Threat) :
    searchStage o l = l.filter (searchCond o) := by
  cases o with
  | none =>
      calc searchStage none l = l := rfl
        _ = l.filter (fun _ => true) := (List.filter_true l).symm
        _ = l.filter (searchCond none) := filter_ptwise (fun t => rfl) l
  | some s =>
      by_cases h : s = ""
      · calc searchStage (some s) l = l := by simp [searchStage, h]
          _ = l.filter (fun _ => true) := (List.filter_true l).symm
          _ = l.filter (searchCond (some s)) :=
            filter_ptwise (fun t => by simp [searchCond, h]) l
      · calc searchStage (some s) l = l.filter (searchPred s) := by simp [searchStage, h]
          _ = l.filter (searchCond (some s)) :=
            filter_ptwise (fun t => by simp [searchCond, h]) l

theorem vendorStage_eq_filter (o : Option String) (l : List Threat) :
    vendorStage o l = l.filter (vendorCond o) := by
  cases o with
  | none =>
      calc vendorStage none l = l := rfl
        _ = l.filter (fun _ => true) := (List.filter_true l).symm
        _ = l.filter (vendorCond none) := filter_ptwise (fun t => rfl) l
  | some v =>
      by_cases h : v ≠ "" ∧ v ≠ "all"
      · calc vendorStage (some v) l
            = l.filter (fun threat => threat.vendorProject == v) := by simp [vendorStage, h]
          _ = l.filter (vendorCond (some v)) :=
            filter_ptwise (fun t => by simp [vendorCond, h]) l
      · calc vendorStage (some v) l = l := by simp [vendorStage, h]
          _ = l.filter (fun _ => true) := (List.filter_true l).symm
          _ = l.filter (vendorCond (some v)) :=
            filter_ptwise (fun t => by simp [vendorCond, h]) l

theorem severityStage_eq_filter (o : Option String) (l : List Threat) :
    severityStage o l = l.filter (severityCond o) := by
  cases o with
  | none =>
      calc severityStage none l = l := rfl
        _ = l.filter (fun _ => true) := (List.filter_true l).symm
        _ = l.filter (severityCond none) := filter_ptwise (fun t => rfl) l
  | some v =>
      by_cases h : v ≠ "" ∧ v ≠ "all"
      · calc severityStage (some v) l
            = l.filter (fun threat => threat.severity == v) := by simp [severityStage, h]
          _ = l.filter (severityCond (some v)) :=
            filter_ptwise (fun t => by simp [severityCond, h]) l
      · calc severityStage (some v) l = l := by simp [severityStage, h]
          _ = l.filter (fun _ => true) := (List.filter_true l).symm
          _ = l.filter (severityCond (some v)) :=
            filter_ptwise (fun t => by simp [severityCond, h]) l

theorem getMockData_threats (f : Filters) :
    (getMockData f).threats = mockThreats.filter (specMatches f) := by
  show severityStage f.severity
      (vendorStage f.vendor (searchStage f.search mockThreats)) =
    mockThreats.filter (specMatches f)
  rw [searchStage_eq_filter, vendorStage_eq_filter, severityStage_eq_filter,
    List.filter_filter, List.filter_filter]
  apply List.filter_congr
  intro t _
  simp only [specMatches]
  cases searchCond f.search t <;> cases vendorCond f.vendor t <;>
    cases severityCond f.severity t <;> rfl

/-- C1: for every filter object and every outcome of the underlying network
    request, `fetchThreats` returns a result object and never propagates an
    exception; on a non-OK status or a thrown fetch error it returns the
    mock-data fallback `getMockData filters`, whose threat list is exactly
    the hard-coded records matching the search (case-insensitively over
    `cveID`, `vendorProject`, `product`, `vulnerabilityName`), vendor and
    severity filters (the latter two applied when set and not `all`). -/
theorem fetchThreats_total_with_mock_fallback (net : NetOutcome) (f : Filters) :
    fetchThreats net f =
      (match net with
       | .success body => body
       | .httpError _ => getMockData f
       | .netThrow => getMockData f) ∧
    (getMockData f).threats = mockThreats.filter (specMatches f) := by
  constructor
  · cases net <;> rfl
  · exact getMockData_threats f

/-! ### `severityStats` from `App.jsx`

A JavaScript object with string keys behaves as an association list in key
insertion order; `stats[k] = (stats[k] || 0) + 1` either bumps the value at
an existing key or appends a fresh key at the end. -/

/-- The object literal initializing `stats` in `severityStats`. -/
def initSeverityStats : List (String × Nat) :=
  [("Critical", 0), ("High", 0), ("Medium", 0), ("Low", 0)]

/-- `stats[s] = (stats[s] || 0) + 1` on an insertion-ordered string-keyed
    object. -/
def bumpKey (m : List (String × Nat)) (s : String) : List (String × Nat) :=
  match m with
  | [] => [(s, 1)]
  | (k, v) :: rest => if k == s then (k, v + 1) :: rest else (k, v) :: bumpKey rest s

/-- `severityStats` from `App.jsx`: fold the threats over the counter object
    and read the entries off in key order. -/
def severityStats (threats : List Threat) : List (String × Nat) :=
  threats.foldl (fun stats t => bumpKey stats t.severity) initSeverityStats

/-- Value stored for key `k`, `0` when the key is absent. -/
def countOf (m : List (String × Nat)) (k : String) : Nat :=
  match m.find? (fun p => p.1 == k) with
  | some p => p.2
  | none => 0

theorem countOf_bumpKey_self (m : List (String × Nat)) (s : String) :
    countOf (bumpKey m s) s = countOf m s + 1 := by
  induction m with
  | nil => simp [bumpKey, countOf]
  | cons hd tl ih =>
      obtain ⟨k, v⟩ := hd
      by_cases h : k = s
      · subst h
        simp [bumpKey, countOf, List.find?]
      · simp only [bumpKey, beq_iff_eq, h, if_false]
        simp only [countOf, List.find?] at ih ⊢
        have hk : (k == s) = false := by simp [h]
        simp [hk, ih]

theorem countOf_bumpKey_other (m : List (String × Nat)) (s q : String)
    (hne : q ≠ s) : countOf (bumpKey m s) q = countOf m q := by
  have hsq : (s == q) = false := by
    simp only [beq_eq_false_iff_ne, ne_eq]
    intro hEq
    exact hne hEq.symm
  induction m with
  | nil => simp [bumpKey, countOf, List.find?, hsq]
  | cons hd tl ih =>
      obtain ⟨a, v⟩ := hd
      by_cases h : a = s
      · have ha : (a == s) = true := beq_iff_eq.mpr h
        simp only [bumpKey, ha, if_true]
        have haq : (a == q) = false := by rw [h]; exact hsq
        simp [countOf, List.find?, haq]
      · have ha : (a == s) = false := by simp [h]
        simp only [bumpKey, ha, Bool.false_eq_true, if_false]
        simp only [countOf, List.find?] at ih ⊢
        cases hfind : (a == q) <;> simp [hfind, ih]

theorem sum_bumpKey (m : List (String × Nat)) (s : String) :
    ((bumpKey m s).map (fun p => p.2)).sum = (m.map (fun p => p.2)).sum + 1 := by
  induction m with
  | nil => simp [bumpKey]
  | cons hd tl ih =>
      obtain ⟨k, v⟩ := hd
      by_cases h : k = s <;> simp [bumpKey, h, ih] <;> omega

theorem keys_bumpKey (m : List (String × Nat)) (s : String) :
    (bumpKey m s).map (fun p => p.1) =
      if s ∈ m.map (fun p => p.1) then m.map (fun p => p.1)
      else m.map (fun p => p.1) ++ [s] := by
  induction m with
  | nil => simp [bumpKey]
  | cons hd tl ih =>
      obtain ⟨k, v⟩ := hd
      by_cases h : k = s
      · subst h
        simp [bumpKey]
      · have hk : (k == s) = false := by simp [h]
        have hsk : s ≠ k := fun hh => h hh.symm
        simp only [bumpKey, hk, Bool.false_eq_true, if_false, List.map_cons, ih]
        by_cases hmem : s ∈ tl.map (fun p => p.1) <;> simp [hmem, hsk]

theorem nodup_keys_bumpKey (m : List (String × Nat)) (s : String)
    (h : (m.map (fun p => p.1)).Nodup) :
    ((bumpKey m s).map (fun p => p.1)).Nodup := by
  rw [keys_bumpKey]
  by_cases hmem : s ∈ m.map (fun p => p.1)
  · simpa [hmem]
  · simpa [hmem] using List.Nodup.append h (by simp) (by
      intro a ha hb
      simp at hb
      subst hb
      exact hmem ha)

theorem find?_eq_of_mem_of_nodup (m : List (String × Nat))
    (p : String × Nat) (hp : p ∈ m) (hnd : (m.map (fun q => q.1)).Nodup) :
    m.find? (fun q => q.1 == p.1) = some p := by
  induction m with
  | nil => cases hp
  | cons hd tl ih =>
      simp only [List.map_cons, List.nodup_cons] at hnd
      rcases List.mem_cons.mp hp with h | h
      · subst h
        simp [List.find?]
      · have hne : hd.1 ≠ p.1 := by
          intro hEq
          exact hnd.1 (hEq ▸ List.mem_map_of_mem (fun q => q.1) h)
        have : (hd.1 == p.1) = false := by simp [hne]
        simp [List.find?, this, ih h hnd.2]

theorem mem_countOf (m : List (String × Nat)) (p : String × Nat)
    (hp : p ∈ m) (hnd : (m.map (fun q => q.1)).Nodup) :
    countOf m p.1 = p.2 := by
  simp [countOf, find?_eq_of_mem_of_nodup m p hp hnd]

theorem fold_bumpKey_countOf (l : List Threat) (m : List (String × Nat))
    (q : String) :
    countOf (l.foldl (fun st t => bumpKey st t.severity) m) q =
      countOf m q + (l.filter (fun t => t.severity == q)).length := by
  induction l generalizing m with
  | nil => simp
  | cons hd tl ih =>
      rw [List.foldl_cons, ih]
      by_cases h : hd.severity = q
      · subst h
        rw [countOf_bumpKey_self]
        simp [List.filter_cons]
        omega
      · have : countOf (bumpKey m hd.severity) q = countOf m q :=
          countOf_bumpKey_other m hd.severity q (fun hh => h hh.symm)
        have hb : (hd.severity == q) = false := by simp [h]
        simp [List.filter_cons, hb, this]

theorem fold_bumpKey_sum (l : List Threat) (m : List (String × Nat)) :
    ((l.foldl (fun st t => bumpKey st t.severity) m).map
        (fun p => p.2)).sum = (m.map (fun p => p.2)).sum + l.length := by
  induction l generalizing m with
  | nil => simp
  | cons hd tl ih =>
      rw [List.foldl_cons, ih, sum_bumpKey]
      simp
      omega

theorem mem_keys_bumpKey (m : List (String × Nat)) (s q : String)
    (hq : q ∈ m.map (fun p => p.1)) :
    q ∈ (bumpKey m s).map (fun p => p.1) := by
  rw [keys_bumpKey]
  by_cases hmem : s ∈ m.map (fun p => p.1)
  · rw [if_pos hmem]; exact hq
  · rw [if_neg hmem]; exact List.mem_append_left _ hq

theorem fold_bumpKey_keys_mem (l : List Threat) (m : List (String × Nat))
    (q : String) (hq : q ∈ m.map (fun p => p.1)) :
    q ∈ (l.foldl (fun st t => bumpKey st t.severity) m).map (fun p => p.1) := by
  induction l generalizing m with
  | nil => simpa using hq
  | cons hd tl ih =>
      rw [List.foldl_cons]
      exact ih _ (mem_keys_bumpKey m hd.severity q hq)

theorem fold_bumpKey_nodup (l : List Threat) (m : List (String × Nat))
    (hm : (m.map (fun p => p.1)).Nodup) :
    ((l.foldl (fun st t => bumpKey st t.severity) m).map
        (fun p => p.1)).Nodup := by
  induction l generalizing m with
  | nil => simpa
  | cons hd tl ih =>
      rw [List.foldl_cons]
      exact ih _ (nodup_keys_bumpKey m hd.severity hm)

theorem countOf_init_zero (q : String) : countOf initSeverityStats q = 0 := by
  have hz : ∀ p ∈ initSeverityStats, p.2 = 0 := by decide
  unfold countOf
  cases hfind : initSeverityStats.find? (fun p => p.1 == q) with
  | none => rfl
  | some p => exact hz p (List.mem_of_find?_eq_some hfind)

/-- C2: for every list of threats, every entry of `severityStats` counts
    exactly the threats with that severity, the four levels `Critical`,
    `High`, `Medium`, `Low` always have an entry, and the counts sum to the
    number of threats. -/
theorem severityStats_counts (threats : List Threat) :
    (∀ p ∈ severityStats threats,
        p.2 = (threats.filter (fun t => t.severity == p.1)).length) ∧
    (∀ s ∈ (["Critical", "High", "Medium", "Low"] : List String),
        ∃ p ∈ severityStats threats, p.1 = s) ∧
    ((severityStats threats).map (fun p => p.2)).sum = threats.length := by
  have hnd0 : (initSeverityStats.map (fun p => p.1)).Nodup := by decide
  have hnd : ((severityStats threats).map (fun p => p.1)).Nodup :=
    fold_bumpKey_nodup threats initSeverityStats hnd0
  refine ⟨?_, ?_, ?_⟩
  · intro p hp
    have h1 : countOf (severityStats threats) p.1 = p.2 :=
      mem_countOf _ p hp hnd
    have h2 := fold_bumpKey_countOf threats initSeverityStats p.1
    rw [countOf_init_zero] at h2
    unfold severityStats at h1
    omega
  · intro s hs
    have hs0 : s ∈ initSeverityStats.map (fun p => p.1) := by
      simpa [initSeverityStats] using hs
    have hmem := fold_bumpKey_keys_mem threats initSeverityStats s hs0
    obtain ⟨p, hp, hps⟩ := List.mem_map.mp hmem
    exact ⟨p, hp, hps⟩
  · have h := fold_bumpKey_sum threats initSeverityStats
    have hz : (initSeverityStats.map (fun p => p.2)).sum = 0 := by decide
    rw [hz] at h
    simpa [severityStats] using h

/-- Witness for C2 at the concrete mock-threat list: the `High` entry of the
    statistics counts exactly the high-severity mock records. -/
theorem severityStats_counts_witness :
    (("High", 1) : String × Nat).2 =
      (mockThreats.filter (fun t => t.severity == "High")).length :=
  (severityStats_counts mockThreats).1 ("High", 1) (by decide)

/-! ### `uniqueVendors` / `uniqueCWEs` from `App.jsx`

`[...new Set(list)]` keeps the first occurrence of each value in insertion
order; `.sort()` without a comparator sorts strings by their code units. -/

/-- Insertion into a JavaScript `Set` viewed as an insertion-ordered list. -/
def setInsert (acc : List String) (x : String) : List String :=
  if x ∈ acc then acc else acc ++ [x]

/-- `[...new Set(l)]`: values of `l` without duplicates, in first-occurrence
    order. -/
def jsSet (l : List String) : List String := l.foldl setInsert []

/-- Code-unit comparison of character lists (the order used by the default
    JavaScript `sort`; the data here stays in the basic plane, where code
    units and code points agree). -/
def lexLe : List Char → List Char → Bool
  | [], _ => true
  | _ :: _, [] => false
  | a :: as, b :: bs =>
      if a.toNat < b.toNat then true
      else if b.toNat < a.toNat then false
      else lexLe as bs

/-- String comparison used by the default JavaScript `sort`. -/
def strLe (a b : String) : Bool := lexLe a.data b.data

/-- `.sort()` on an array of strings. -/
def jsSortStrings (l : List String) : List String := l.mergeSort strLe

/-- `uniqueVendors` from `App.jsx`. -/
def uniqueVendors (threats : List Threat) : List String :=
  jsSortStrings (jsSet (threats.map (fun t => t.vendorProject)))

/-- `uniqueCWEs` from `App.jsx`. -/
def uniqueCWEs (threats : List Threat) : List String :=
  jsSortStrings (jsSet (threats.flatMap (fun t => t.cwes)))

theorem mem_setInsert (acc : List String) (x y : String) :
    y ∈ setInsert acc x ↔ y ∈ acc ∨ y = x := by
  unfold setInsert
  by_cases h : x ∈ acc
  · rw [if_pos h]
    constructor
    · exact Or.inl
    · rintro (hy | rfl)
      · exact hy
      · exact h
  · rw [if_neg h]
    simp

theorem nodup_setInsert (acc : List String) (x : String)
    (h : acc.Nodup) : (setInsert acc x).Nodup := by
  unfold setInsert
  by_cases hx : x ∈ acc
  · rwa [if_pos hx]
  · rw [if_neg hx]
    exact List.Nodup.append h (by simp) (by
      intro a ha hb
      simp at hb
      subst hb
      exact hx ha)

theorem mem_jsSet_fold (l acc : List String) (y : String) :
    y ∈ l.foldl setInsert acc ↔ y ∈ acc ∨ y ∈ l := by
  induction l generalizing acc with
  | nil => simp
  | cons hd tl ih =>
      rw [List.foldl_cons, ih, mem_setInsert]
      simp [or_assoc]

theorem nodup_jsSet_fold (l acc : List String) (h : acc.Nodup) :
    (l.foldl setInsert acc).Nodup := by
  induction l generalizing acc with
  | nil => simpa
  | cons hd tl ih =>
      rw [List.foldl_cons]
      exact ih _ (nodup_setInsert acc hd h)

theorem mem_jsSet (l : List String) (y : String) : y ∈ jsSet l ↔ y ∈ l := by
  unfold jsSet
  rw [mem_jsSet_fold]
  simp

theorem nodup_jsSet (l : List String) : (jsSet l).Nodup :=
  nodup_jsSet_fold l [] List.nodup_nil

theorem lexLe_total (x y : List Char) : lexLe x y || lexLe y x := by
  induction x generalizing y with
  | nil => simp [lexLe]
  | cons a as ih =>
      cases y with
      | nil => simp [lexLe]
      | cons b bs =>
          rcases Nat.lt_trichotomy a.toNat b.toNat with h | h | h
          · simp [lexLe, h]
          · simp [lexLe, h, Nat.lt_irrefl, ih bs]
          · simp [lexLe, h, Nat.lt_asymm h]

theorem lexLe_trans (x y z : List Char) (hxy : lexLe x y) (hyz : lexLe y z) :
    lexLe x z := by
  induction x generalizing y z with
  | nil => simp [lexLe]
  | cons a as ih =>
      cases y with
      | nil => simp [lexLe] at hxy
      | cons b bs =>
          cases z with
          | nil => simp [lexLe] at hyz
          | cons c cs =>
              simp only [lexLe] at hxy hyz ⊢
              rcases Nat.lt_trichotomy a.toNat b.toNat with hab | hab | hab <;>
                rcases Nat.lt_trichotomy b.toNat c.toNat with hbc | hbc | hbc <;>
                  simp_all [Nat.lt_irrefl, Nat.lt_asymm] <;>
                    first
                      | omega
                      | (exact ih bs cs hxy hyz)

theorem strLe_total (a b : String) : strLe a b || strLe b a :=
  lexLe_total a.data b.data

theorem strLe_trans (a b c : String) (hab : strLe a b) (hbc : strLe b c) :
    strLe a c :=
  lexLe_trans a.data b.data c.data hab hbc

theorem jsSortStrings_perm (l : List String) :
    (jsSortStrings l).Perm l :=
  List.mergeSort_perm l strLe

theorem jsSortStrings_sorted (l : List String) :
    List.Pairwise (fun a b => strLe a b = true) (jsSortStrings l) :=
  @List.sorted_mergeSort String strLe
    (fun a b c => strLe_trans a b c)
    (fun a b => strLe_total a b) l

/-- C3: `uniqueVendors` lists each occurring `vendorProject` exactly once in
    ascending string order, and `uniqueCWEs` likewise lists exactly the
    distinct CWE identifiers occurring across the threats' `cwes` arrays. -/
theorem uniqueVendors_uniqueCWEs_spec (threats : List Threat) :
    (uniqueVendors threats).Nodup ∧
    (∀ v, v ∈ uniqueVendors threats ↔
        v ∈ threats.map (fun t => t.vendorProject)) ∧
    List.Pairwise (fun a b => strLe a b = true) (uniqueVendors threats) ∧
    (uniqueCWEs threats).Nodup ∧
    (∀ c, c ∈ uniqueCWEs threats ↔ ∃ t ∈ threats, c ∈ t.cwes) ∧
    List.Pairwise (fun a b => strLe a b = true) (uniqueCWEs threats) := by
  refine ⟨?_, ?_, jsSortStrings_sorted _, ?_, ?_, jsSortStrings_sorted _⟩
  · exact (jsSortStrings_perm _).nodup_iff.mpr (nodup_jsSet _)
  · intro v
    unfold uniqueVendors
    rw [(jsSortStrings_perm _).mem_iff, mem_jsSet]
  · exact (jsSortStrings_perm _).nodup_iff.mpr (nodup_jsSet _)
  · intro c
    unfold uniqueCWEs
    rw [(jsSortStrings_perm _).mem_iff, mem_jsSet, List.mem_flatMap]

/-! ### `filteredThreats` from `App.jsx`

The date strings are interpreted through an abstract `dateValue` function
(the JavaScript `Date` parse) and an abstract current time `now`; the
filtering and permutation properties hold for every interpretation. -/

/-- Strict code-unit comparison of character lists (JavaScript `<` on
    strings). -/
def lexLt : List Char → List Char → Bool
  | [], [] => false
  | [], _ :: _ => true
  | _ :: _, [] => false
  | a :: as, b :: bs =>
      if a.toNat < b.toNat then true
      else if b.toNat < a.toNat then false
      else lexLt as bs

/-- JavaScript `<` on strings. -/
def strLt (a b : String) : Bool := lexLt a.data b.data

/-- The `dateRange` select: `'all'` or a number of days (`'7'`, `'30'`,
    `'90'` after `parseInt`). -/
inductive DateRange where
  | all
  | days (n : Nat)
deriving Repr, DecidableEq

/-- The filter-relevant pieces of the `App` component state. -/
structure AppParams where
  searchTerm : String
  selectedVendor : String
  selectedSeverity : String
  selectedCWE : String
  dateRange : DateRange

/-- The `sortBy` select values of `App.jsx`. -/
inductive SortField where
  | dateAdded
  | dueDate
  | severity
  | vendorProject
deriving Repr, DecidableEq

/-- `matchesSearch` in the `filteredThreats` filter callback. -/
def matchesSearch (searchTerm : String) (t : Threat) : Bool :=
  searchTerm == "" ||
  strIncludes (jsToLower t.cveID) (jsToLower searchTerm) ||
  strIncludes (jsToLower t.vendorProject) (jsToLower searchTerm) ||
  strIncludes (jsToLower t.product) (jsToLower searchTerm) ||
  strIncludes (jsToLower t.vulnerabilityName) (jsToLower searchTerm)

/-- `matchesVendor` in the filter callback. -/
def matchesVendor (v : String) (t : Threat) : Bool :=
  v == "all" || t.vendorProject == v

/-- `matchesSeverity` in the filter callback. -/
def matchesSeverity (v : String) (t : Threat) : Bool :=
  v == "all" || t.severity == v

/-- `matchesCWE` in the filter callback. -/
def matchesCWE (c : String) (t : Threat) : Bool :=
  c == "all" || t.cwes.contains c

/-- `matchesDate` in the filter callback: inside the 24h-per-day cutoff
    window when a day range is selected. -/
def matchesDate (dateValue : String → Int) (now : Int) (dr : DateRange)
    (t : Threat) : Bool :=
  match dr with
  | .all => true
  | .days n =>
      decide (now - (n : Int) * (24 * 60 * 60 * 1000) ≤ dateValue t.dateAdded)

/-- The whole filter callback of `filteredThreats`. -/
def appFilterPred (dateValue : String → Int) (now : Int) (p : AppParams)
    (t : Threat) : Bool :=
  matchesSearch p.searchTerm t &&
  matchesVendor p.selectedVendor t &&
  matchesSeverity p.selectedSeverity t &&
  matchesCWE p.selectedCWE t &&
  matchesDate dateValue now p.dateRange t

/-- `aValue > bValue` for the field selected by `sortBy` (dates through
    `dateValue`, the other fields as strings). -/
def fieldGt (dateValue : String → Int) (sortBy : SortField)
    (a b : Threat) : Bool :=
  match sortBy with
  | .dateAdded => decide (dateValue b.dateAdded < dateValue a.dateAdded)
  | .dueDate => decide (dateValue b.dueDate < dateValue a.dueDate)
  | .severity => strLt b.severity a.severity
  | .vendorProject => strLt b.vendorProject a.vendorProject

/-- "`a` may come before `b`" for the sort comparator of `filteredThreats`
    (`comparator a b ≤ 0`): ascending keeps `a` first unless
    `aValue > bValue`, descending unless `aValue < bValue`. -/
def sortLe (dateValue : String → Int) (sortBy : SortField) (sortAsc : Bool)
    (a b : Threat) : Bool :=
  if sortAsc then !(fieldGt dateValue sortBy a b)
  else !(fieldGt dateValue sortBy b a)

/-- `filteredThreats` from `App.jsx`: filter, then sort. -/
def filteredThreats (dateValue : String → Int) (now : Int) (p : AppParams)
    (sortBy : SortField) (sortAsc : Bool) (threats : List Threat) :
    List Threat :=
  (threats.filter (appFilterPred dateValue now p)).mergeSort
    (sortLe dateValue sortBy sortAsc)

/-- C8: membership in `filteredThreats` is the simultaneous conjunction of
    the five filter conditions, and with the identity filter state (empty
    search, all selects at `all`) the result is a permutation of the whole
    input list. -/
theorem filteredThreats_conjunctive (dateValue : String → Int) (now : Int)
    (p : AppParams) (sortBy : SortField) (sortAsc : Bool)
    (threats : List Threat) :
    (∀ t, t ∈ filteredThreats dateValue now p sortBy sortAsc threats ↔
        t ∈ threats ∧ matchesSearch p.searchTerm t ∧
        matchesVendor p.selectedVendor t ∧
        matchesSeverity p.selectedSeverity t ∧
        matchesCWE p.selectedCWE t ∧
        matchesDate dateValue now p.dateRange t) ∧
    (filteredThreats dateValue now
        ⟨"", "all", "all", "all", DateRange.all⟩ sortBy sortAsc
        threats).Perm threats := by
  constructor
  · intro t
    unfold filteredThreats
    rw [(List.mergeSort_perm _ _).mem_iff, List.mem_filter]
    simp [appFilterPred, and_assoc]
  · unfold filteredThreats
    have hall : ∀ t ∈ threats,
        appFilterPred dateValue now ⟨"", "all", "all", "all", .all⟩ t =
          (fun _ => true) t := by
      intro t _
      simp [appFilterPred, matchesSearch, matchesVendor, matchesSeverity,
        matchesCWE, matchesDate]
    rw [List.filter_congr hall, List.filter_true]
    exact List.mergeSort_perm threats _

/-! ### Pagination from `App.jsx` -/

/-- `itemsPerPage` state (constant `10`). -/
def itemsPerPage : Nat := 10

/-- `totalPages = Math.ceil(filteredThreats.length / itemsPerPage)`. -/
def totalPages (l : List Threat) : Nat := ceilDiv l.length itemsPerPage

/-- `paginatedThreats = filteredThreats.slice((currentPage-1)*itemsPerPage,
    currentPage*itemsPerPage)`. -/
def paginatedThreats (l : List Threat) (currentPage : Nat) : List Threat :=
  (l.drop ((currentPage - 1) * itemsPerPage)).take
    (currentPage * itemsPerPage - (currentPage - 1) * itemsPerPage)

theorem paginatedThreats_succ (l : List Threat) (i : Nat) :
    paginatedThreats l (i + 1) = (l.drop (i * 10)).take 10 := by
  unfold paginatedThreats itemsPerPage
  congr 1
  omega

theorem pages_concat_take (l : List Threat) (k : Nat) :
    ((List.range k).map (fun i => paginatedThreats l (i + 1))).flatten =
      l.take (k * 10) := by
  induction k with
  | zero => simp
  | succ n ih =>
      rw [List.range_succ, List.map_append, List.flatten_append, ih]
      simp only [List.map_cons, List.map_nil, List.flatten_cons,
        List.flatten_nil, List.append_nil, paginatedThreats_succ]
      rw [show (n + 1) * 10 = n * 10 + 10 by ring, List.take_add]

/-- C9: `totalPages` is the ceiling of the filtered length over the page
    size, each page holds at most `itemsPerPage` threats, and the pages
    `1 … totalPages` concatenate back to the full filtered list. -/
theorem pagination_partitions (l : List Threat) :
    (l.length ≤ totalPages l * itemsPerPage ∧
      totalPages l * itemsPerPage < l.length + itemsPerPage) ∧
    (∀ page, (paginatedThreats l page).length ≤ itemsPerPage) ∧
    ((List.range (totalPages l)).map
        (fun i => paginatedThreats l (i + 1))).flatten = l := by
  refine ⟨?_, ?_, ?_⟩
  · unfold totalPages ceilDiv itemsPerPage
    omega
  · intro page
    unfold paginatedThreats
    calc ((l.drop ((page - 1) * itemsPerPage)).take
            (page * itemsPerPage - (page - 1) * itemsPerPage)).length
        ≤ page * itemsPerPage - (page - 1) * itemsPerPage :=
          List.length_take_le _ _
      _ ≤ itemsPerPage := by unfold itemsPerPage; omega
  · rw [pages_concat_take]
    apply List.take_of_length_le
    unfold totalPages ceilDiv itemsPerPage
    omega

/-! ### Duplicated helper functions: `App.jsx` locals vs `api.js` exports

`App.jsx` defines `getSeverityColor`, `getSeverityBadgeVariant`,
`getDaysUntilDue` and `getUrgencyColor` locally, while `api.js` exports
functions of the same names (imported by `ThreatDetailsModal.jsx`).  Each
version is embedded separately from its own source text. -/

/-- `Math.ceil (a / b)` on integers, for positive `b`. -/
def jsCeilDivInt (a b : Int) : Int := -((-a).fdiv b)

/-- `getSeverityColor` as defined inside the `App` component. -/
def appGetSeverityColor (severity : String) : String :=
  if severity == "Critical" then "bg-red-500"
  else if severity == "High" then "bg-orange-500"
  else if severity == "Medium" then "bg-yellow-500"
  else if severity == "Low" then "bg-green-500"
  else "bg-gray-500"

/-- `getSeverityColor` as exported from `api.js`. -/
def apiGetSeverityColor (severity : String) : String :=
  if severity == "Critical" then "bg-red-500"
  else if severity == "High" then "bg-orange-500"
  else if severity == "Medium" then "bg-yellow-500"
  else if severity == "Low" then "bg-green-500"
  else "bg-gray-500"

/-- `getSeverityBadgeVariant` as defined inside the `App` component. -/
def appGetSeverityBadgeVariant (severity : String) : String :=
  if severity == "Critical" then "destructive"
  else if severity == "High" then "destructive"
  else if severity == "Medium" then "secondary"
  else if severity == "Low" then "outline"
  else "outline"

/-- `getSeverityBadgeVariant` as exported from `api.js`. -/
def apiGetSeverityBadgeVariant (severity : String) : String :=
  if severity == "Critical" then "destructive"
  else if severity == "High" then "destructive"
  else if severity == "Medium" then "secondary"
  else if severity == "Low" then "outline"
  else "outline"

/-- `getDaysUntilDue` as defined inside the `App` component:
    `Math.ceil((due - now) / 86400000)`, dates through `dateValue`. -/
def appGetDaysUntilDue (dateValue : String → Int) (now : Int)
    (dueDate : String) : Int :=
  jsCeilDivInt (dateValue dueDate - now) (1000 * 60 * 60 * 24)

/-- `getDaysUntilDue` as exported from `api.js`. -/
def apiGetDaysUntilDue (dateValue : String → Int) (now : Int)
    (dueDate : String) : Int :=
  jsCeilDivInt (dateValue dueDate - now) (1000 * 60 * 60 * 24)

/-- `getUrgencyColor` as defined inside the `App` component. -/
def appGetUrgencyColor (daysUntilDue : Int) : String :=
  if daysUntilDue < 0 then "text-red-600 font-bold"
  else if daysUntilDue ≤ 3 then "text-orange-600 font-semibold"
  else if daysUntilDue ≤ 7 then "text-yellow-600"
  else "text-gray-600"

/-- `getUrgencyColor` as exported from `api.js`. -/
def apiGetUrgencyColor (daysUntilDue : Int) : String :=
  if daysUntilDue < 0 then "text-red-600 font-bold"
  else if daysUntilDue ≤ 3 then "text-orange-600 font-semibold"
  else if daysUntilDue ≤ 7 then "text-yellow-600"
  else "text-gray-600"

/-- C10: the four helper functions defined locally in `App.jsx` are
    extensionally equal to the identically named exports of `api.js` used by
    `ThreatDetailsModal.jsx`. -/
theorem app_api_helpers_agree (severity dueDate : String)
    (dateValue : String → Int) (now days : Int) :
    appGetSeverityColor severity = apiGetSeverityColor severity ∧
    appGetSeverityBadgeVariant severity = apiGetSeverityBadgeVariant severity ∧
    appGetDaysUntilDue dateValue now dueDate =
      apiGetDaysUntilDue dateValue now dueDate ∧
    appGetUrgencyColor days = apiGetUrgencyColor days :=
  ⟨rfl, rfl, rfl, rfl⟩

end Dashboard

namespace Engine

/-- Modelled from the spec: the Python collection engine is not among the
    checked-in sources, so the `Record` data model follows §3 of the spec:
    `source_name`, `collected_at`, `domain`, plus loose domain-specific
    fields. -/
structure Record where
  source_name : String
  collected_at : Nat
  domain : String
  fields : List (String × String)
deriving Repr, DecidableEq

/-- Modelled from the spec: outcome of dispatching one source during a
    collection run (the Fetch/Interactive Collector code is not in the
    sources) — either a sequence of records or a recovered source-level
    failure. -/
inductive SourceOutcome where
  | ok (records : List Record)
  | failed
deriving Repr, DecidableEq

/-- Did the source succeed? -/
def SourceOutcome.isOk : SourceOutcome → Bool
  | .ok _ => true
  | .failed => false

/-- Records yielded by the source (none on failure). -/
def SourceOutcome.records : SourceOutcome → List Record
  | .ok rs => rs
  | .failed => []

/-- Modelled from the spec: the `CollectionResult` aggregate of §3 (the
    Orchestrator code is not in the sources). -/
structure CollectionResult where
  domain : String
  location : String
  records : List Record
  sources_attempted : Nat
  sources_succeeded : Nat
  degraded : Bool
deriving Repr, DecidableEq

/-- Modelled from the spec: step 4–7 of the Orchestrator algorithm (§4.5),
    whose code is not in the sources, applied to the per-source outcomes of
    one run: merge records in source order, count attempted and succeeded
    sources, and mark the result degraded exactly when every attempted
    source errored. -/
def collect_domain_data (domain location : String)
    (outcomes : List SourceOutcome) : CollectionResult :=
  { domain := domain
    location := location
    records := outcomes.flatMap SourceOutcome.records
    sources_attempted := outcomes.length
    sources_succeeded := (outcomes.filter SourceOutcome.isOk).length
    degraded := decide (0 < outcomes.length) &&
      outcomes.all (fun o => !o.isOk) }

/-- C4: a collection result is degraded exactly when no source succeeded
    while at least one was attempted; in every other case (including a
    succeeding source that yielded zero records) it is not degraded. -/
theorem collect_domain_data_degraded_iff (domain location : String)
    (outcomes : List SourceOutcome) :
    (collect_domain_data domain location outcomes).degraded = true ↔
      ((collect_domain_data domain location outcomes).sources_succeeded = 0 ∧
        0 < (collect_domain_data domain location outcomes).sources_attempted) := by
  unfold collect_domain_data
  simp only [Bool.and_eq_true, decide_eq_true_eq, List.all_eq_true,
    List.length_eq_zero, List.filter_eq_nil_iff]
  constructor
  · rintro ⟨hlen, hall⟩
    refine ⟨?_, hlen⟩
    intro o ho
    have := hall o ho
    simp at this
    simp [this]
  · rintro ⟨hnone, hlen⟩
    refine ⟨hlen, ?_⟩
    intro o ho
    have := hnone o ho
    simp at this ⊢
    simp [this]

/-! ### Source Registry (§4.1) -/

/-- Modelled from the spec: source kinds `api | scrape | interactive`
    (§3); the registry code is not in the sources. -/
inductive SourceKind where
  | api
  | scrape
  | interactive
deriving Repr, DecidableEq

/-- Modelled from the spec: the immutable `SourceDescriptor` config entry
    of §3; the registry code is not in the sources. -/
structure SourceDescriptor where
  name : String
  location : String
  kind : SourceKind
  extraction_rules : List (String × String)
  auth_required : Bool
deriving Repr, DecidableEq

/-- Modelled from the spec: the synthetic generic `scrape` descriptor the
    registry produces for an unknown domain, templating the domain name
    into a best-guess search URL (§4.1). -/
def genericFallback (domain : String) : SourceDescriptor :=
  { name := "Generic Web Search"
    location := "https://www.google.com/search?q=" ++ domain
    kind := .scrape
    extraction_rules := []
    auth_required := false }

/-- Modelled from the spec: `resolve(domain)` of the Source Registry
    (§4.1), whose code is not in the sources: the configured list for a
    known domain, the single synthetic fallback otherwise. -/
def resolve (registry : List (String × List SourceDescriptor))
    (domain : String) : List SourceDescriptor :=
  match registry.find? (fun e => e.1 == domain) with
  | some e => e.2
  | none => [genericFallback domain]

/-- C6: with a well-formed registry (per §7, malformed entries fail fast at
    config-load time, so configured lists are non-empty), `resolve` returns
    a non-empty list for every domain, and for an unknown domain it returns
    exactly the one synthetic descriptor, whose kind is `scrape`. -/
theorem resolve_nonempty (registry : List (String × List SourceDescriptor))
    (domain : String) (hcfg : ∀ e ∈ registry, e.2 ≠ []) :
    resolve registry domain ≠ [] ∧
    (registry.find? (fun e => e.1 == domain) = none →
      resolve registry domain = [genericFallback domain] ∧
        (genericFallback domain).kind = SourceKind.scrape) := by
  constructor
  · unfold resolve
    cases hfind : registry.find? (fun e => e.1 == domain) with
    | none => simp
    | some e => exact hcfg e (List.mem_of_find?_eq_some hfind)
  · intro hfind
    unfold resolve
    rw [hfind]
    exact ⟨rfl, rfl⟩

/-- Witness for C6 at a concrete registry and the unknown domain `widgets`
    of the spec's concrete scenario 4. -/
theorem resolve_nonempty_witness :
    resolve [] "widgets" ≠ [] ∧
    (List.find? (fun e => e.1 == "widgets")
        ([] : List (String × List SourceDescriptor)) = none →
      resolve [] "widgets" = [genericFallback "widgets"] ∧
        (genericFallback "widgets").kind = SourceKind.scrape) :=
  resolve_nonempty [] "widgets" (by simp)

/-! ### Cache Store (§4.2) -/

/-- Modelled from the spec: a cache entry (§3): key, payload and fetch
    time; the Cache Store code is not in the sources. -/
structure CacheEntry (α : Type) where
  key : String
  payload : α
  fetched_at : Nat
deriving Repr, DecidableEq

/-- Modelled from the spec: `put(key, payload)` of the Cache Store (§4.2),
    whose code is not in the sources — overwrites any existing entry for
    the key and stamps `fetched_at = now`. -/
def cachePut {α : Type} (store : List (CacheEntry α)) (key : String)
    (payload : α) (now : Nat) : List (CacheEntry α) :=
  ⟨key, payload, now⟩ :: store.filter (fun e => ¬(e.key = key))

/-- Modelled from the spec: `get(key)` of the Cache Store (§4.2), whose
    code is not in the sources. -/
def cacheGet {α : Type} (store : List (CacheEntry α)) (key : String) :
    Option (CacheEntry α) :=
  store.find? (fun e => e.key == key)

/-- Modelled from the spec: `is_fresh(entry, ttl)` of the Cache Store
    (§4.2), whose code is not in the sources: `now - fetched_at < ttl`. -/
def is_fresh {α : Type} (e : CacheEntry α) (ttl now : Nat) : Bool :=
  decide (now - e.fetched_at < ttl)

/-- C5: `put` followed immediately by `get` on the same key returns a fresh
    entry carrying exactly the stored payload, stamped with the put time;
    and the new entry is the only entry for that key, so `put` overwrote
    any previous one. -/
theorem cache_round_trip {α : Type} (store : List (CacheEntry α))
    (key : String) (payload : α) (ttl now : Nat) (httl : 0 < ttl) :
    cacheGet (cachePut store key payload now) key =
        some ⟨key, payload, now⟩ ∧
    is_fresh (⟨key, payload, now⟩ : CacheEntry α) ttl now = true ∧
    (∀ e ∈ cachePut store key payload now,
        e.key = key → e = (⟨key, payload, now⟩ : CacheEntry α)) := by
  refine ⟨?_, ?_, ?_⟩
  · unfold cacheGet cachePut
    simp [List.find?]
  · unfold is_fresh
    simp
    omega
  · intro e he hk
    unfold cachePut at he
    rcases List.mem_cons.mp he with h | h
    · exact h
    · have := (List.mem_filter.mp h).2
      simp at this
      exact absurd hk this

/-- Witness for C5: a concrete round trip through an initially empty
    natural-number cache with a one-tick TTL. -/
theorem cache_round_trip_witness :
    cacheGet (cachePut ([] : List (CacheEntry Nat)) "cyber|US|all" 7 42)
        "cyber|US|all" = some ⟨"cyber|US|all", 7, 42⟩ ∧
    is_fresh (⟨"cyber|US|all", 7, 42⟩ : CacheEntry Nat) 1 42 = true ∧
    (∀ e ∈ cachePut ([] : List (CacheEntry Nat)) "cyber|US|all" 7 42,
        e.key = "cyber|US|all" →
          e = (⟨"cyber|US|all", 7, 42⟩ : CacheEntry Nat)) :=
  cache_round_trip [] "cyber|US|all" 7 1 42 (by decide)

/-! ### Interactive Collector scroll loop (§4.4)

The loop is modelled with an explicit fuel argument large enough for every
behaviour; the termination theorem shows the fuel is never exhausted, so
the fuel-free loop of the spec is total. -/

/-- Result of the scroll-and-extract loop: the items extracted and the
    number of scroll iterations performed, or fuel exhaustion (shown
    unreachable below). -/
inductive LoopResult where
  | finished (items iterations : Nat)
  | fuelOut
deriving Repr, DecidableEq

/-- Modelled from the spec: one run of the Interactive Collector's
    scroll-and-extract loop (§4.4), whose code is not in the sources.
    `newItems i` is how many new de-duplicated items iteration `i` yields;
    the loop stops once `max_items` items are extracted or `max_scrolls`
    consecutive iterations were unproductive. -/
def scrollGo (newItems : Nat → Nat) (maxItems maxScrolls : Nat) :
    Nat → Nat → Nat → Nat → LoopResult
  | 0, _, _, _ => .fuelOut
  | fuel + 1, items, unproductive, iterations =>
      if maxItems ≤ items ∨ maxScrolls ≤ unproductive then
        .finished items iterations
      else if newItems iterations = 0 then
        scrollGo newItems maxItems maxScrolls fuel items
          (unproductive + 1) (iterations + 1)
      else
        scrollGo newItems maxItems maxScrolls fuel
          (items + newItems iterations) 0 (iterations + 1)

/-- Fuel sufficient for every behaviour of the loop. -/
def scrollFuel (maxItems maxScrolls : Nat) : Nat :=
  maxItems * (maxScrolls + 1) + maxScrolls + 1

/-- Modelled from the spec: the scroll-and-extract loop entry point, from
    the fresh session state (no items, no unproductive scrolls). -/
def scrollLoop (newItems : Nat → Nat) (maxItems maxScrolls : Nat) :
    LoopResult :=
  scrollGo newItems maxItems maxScrolls (scrollFuel maxItems maxScrolls) 0 0 0

theorem scrollGo_not_fuelOut (newItems : Nat → Nat)
    (maxItems maxScrolls : Nat) :
    ∀ fuel items unproductive iterations,
      (maxItems - items) * (maxScrolls + 1) + (maxScrolls - unproductive) <
          fuel →
      scrollGo newItems maxItems maxScrolls fuel items unproductive
          iterations ≠ .fuelOut := by
  intro fuel
  induction fuel with
  | zero => intro items unproductive iterations h; omega
  | succ f ih =>
      intro items unproductive iterations h
      by_cases hstop : maxItems ≤ items ∨ maxScrolls ≤ unproductive
      · simp [scrollGo, hstop]
      · push_neg at hstop
        obtain ⟨hitems, hunprod⟩ := hstop
        by_cases hn : newItems iterations = 0
        · have hrec :
              scrollGo newItems maxItems maxScrolls (f + 1) items
                  unproductive iterations =
                scrollGo newItems maxItems maxScrolls f items
                  (unproductive + 1) (iterations + 1) := by
            simp [scrollGo, hn]
            omega
          rw [hrec]
          apply ih
          generalize (maxItems - items) * (maxScrolls + 1) = k at h ⊢
          omega
        · have hrec :
              scrollGo newItems maxItems maxScrolls (f + 1) items
                  unproductive iterations =
                scrollGo newItems maxItems maxScrolls f
                  (items + newItems iterations) 0 (iterations + 1) := by
            simp [scrollGo, hn]
            omega
          rw [hrec]
          apply ih
          have h1 : maxItems - (items + newItems iterations) ≤
              maxItems - items - 1 := by omega
          have h2 : (maxItems - (items + newItems iterations)) *
                (maxScrolls + 1) ≤
              (maxItems - items - 1) * (maxScrolls + 1) :=
            Nat.mul_le_mul_right _ h1
          have h3 : (maxItems - items - 1 + 1) * (maxScrolls + 1) =
              (maxItems - items) * (maxScrolls + 1) := by
            have : maxItems - items - 1 + 1 = maxItems - items := by omega
            rw [this]
          rw [Nat.succ_mul] at h3
          generalize (maxItems - (items + newItems iterations)) *
              (maxScrolls + 1) = k0 at h2 ⊢
          generalize (maxItems - items - 1) * (maxScrolls + 1) = k1 at h2 h3
          generalize (maxItems - items) * (maxScrolls + 1) = k2 at h3 h
          omega

theorem scrollGo_ones (maxItems maxScrolls : Nat) (hs : 0 < maxScrolls) :
    ∀ k fuel items iterations, items + k = maxItems → k < fuel →
      scrollGo (fun _ => 1) maxItems maxScrolls fuel items 0 iterations =
        .finished maxItems (iterations + k) := by
  intro k
  induction k with
  | zero =>
      intro fuel items iterations hik hf
      cases fuel with
      | zero => omega
      | succ f =>
          have hstop : maxItems ≤ items ∨ maxScrolls ≤ 0 := Or.inl (by omega)
          simp only [scrollGo]
          rw [if_pos hstop, show items = maxItems by omega]
          rfl
  | succ n ih =>
      intro fuel items iterations hik hf
      cases fuel with
      | zero => omega
      | succ f =>
          have hstop : ¬(maxItems ≤ items ∨ maxScrolls ≤ 0) := by omega
          simp only [scrollGo]
          rw [if_neg hstop]
          norm_num
          rw [ih f (items + 1) (iterations + 1) (by omega) (by omega),
            show iterations + 1 + n = iterations + (n + 1) by omega]

theorem scrollGo_zeros (maxItems maxScrolls : Nat) (hi : 0 < maxItems) :
    ∀ k fuel unproductive iterations, unproductive + k = maxScrolls →
      k < fuel →
      scrollGo (fun _ => 0) maxItems maxScrolls fuel 0 unproductive
          iterations = .finished 0 (iterations + k) := by
  intro k
  induction k with
  | zero =>
      intro fuel unproductive iterations huk hf
      cases fuel with
      | zero => omega
      | succ f =>
          have hstop : maxItems ≤ 0 ∨ maxScrolls ≤ unproductive :=
            Or.inr (by omega)
          simp only [scrollGo]
          rw [if_pos hstop]
          rfl
  | succ n ih =>
      intro fuel unproductive iterations huk hf
      cases fuel with
      | zero => omega
      | succ f =>
          have hstop : ¬(maxItems ≤ 0 ∨ maxScrolls ≤ unproductive) := by
            omega
          simp only [scrollGo]
          rw [if_neg hstop]
          norm_num
          rw [ih f (unproductive + 1) (iterations + 1) (by omega) (by omega),
            show iterations + 1 + n = iterations + (n + 1) by omega]

/-- C7: the scroll loop is bounded for every source behaviour (the fuel
    bound is never hit), a source yielding one new item per scroll stops
    after exactly `max_items` iterations with `max_items` items, and a
    source yielding nothing stops after exactly the `max_scrolls`
    exhaustion threshold. -/
theorem scroll_loop_terminates (maxItems maxScrolls : Nat)
    (hi : 0 < maxItems) (hs : 0 < maxScrolls) :
    scrollLoop (fun _ => 1) maxItems maxScrolls =
        .finished maxItems maxItems ∧
    scrollLoop (fun _ => 0) maxItems maxScrolls =
        .finished 0 maxScrolls ∧
    (∀ newItems, scrollLoop newItems maxItems maxScrolls ≠ .fuelOut) := by
  have hfuel : ∀ hk : Nat, hk ≤ maxItems * (maxScrolls + 1) + maxScrolls →
      hk < scrollFuel maxItems maxScrolls := by
    intro hk h
    unfold scrollFuel
    omega
  refine ⟨?_, ?_, ?_⟩
  · have hlt : maxItems < scrollFuel maxItems maxScrolls := by
      have : maxItems * 1 ≤ maxItems * (maxScrolls + 1) :=
        Nat.mul_le_mul_left _ (by omega)
      unfold scrollFuel
      omega
    simpa [scrollLoop] using
      scrollGo_ones maxItems maxScrolls hs maxItems
        (scrollFuel maxItems maxScrolls) 0 0 (by omega) hlt
  · have hlt : maxScrolls < scrollFuel maxItems maxScrolls := by
      unfold scrollFuel
      omega
    simpa [scrollLoop] using
      scrollGo_zeros maxItems maxScrolls hi maxScrolls
        (scrollFuel maxItems maxScrolls) 0 0 (by omega) hlt
  · intro newItems
    apply scrollGo_not_fuelOut
    simp only [Nat.sub_zero]
    unfold scrollFuel
    omega

/-- Witness for C7 at the concrete caps `max_items = 5`,
    `max_scrolls = 3`. -/
theorem scroll_loop_terminates_witness :
    scrollLoop (fun _ => 1) 5 3 = LoopResult.finished 5 5 ∧
    scrollLoop (fun _ => 0) 5 3 = LoopResult.finished 0 3 ∧
    (∀ newItems, scrollLoop newItems 5 3 ≠ LoopResult.fuelOut) :=
  scroll_loop_terminates 5 3 (by decide) (by decide)

end Engine
